import Mathlib

/-!
Verification of the CDR Discovery & Aggregation Engine of the odango
repository: a shallow embedding, in Lean 4, of the record decoder
(models/cdr.go), the endpoint catalog, selector, query executor and
aggregator (the cdr_discovery section of services/results_store.go), the
TTL results cache (the ResultsStore section of the same file), and the
transactional persistent store with analytics
(services/discovery_database.go), together with theorems settling the
stated properties of those components.

Modelling conventions, used throughout:
* JSON values produced by encoding/json are modelled by `JValue`; JSON
  numbers are carried as `Int` (no property below depends on
  floating-point formatting of numeric fields).
* Go maps are association lists; lookup takes the first match and
  assignment (`mapSet`) updates in place or appends.
* `time.Time` instants are abstract `Nat` ticks, `time.Duration` values
  are `Nat` milliseconds.  The per-entry cache cleanup goroutine
  (sleep for the TTL, then delete) is modelled as a scheduled deletion
  event that fires as soon as its due time has been reached, processed
  before any later operation on the store.
* Network traffic is an oracle `String → HTTPOutcome` mapping the built
  request URL to a transport error or a decoded response body.
* SQLite execution is modelled per statement; a failure oracle
  `Nat → Bool` says which statement executions fail, the deferred
  rollback of database/sql is the discard of the transaction state.
-/

set_option linter.unusedVariables false

namespace ODanGo

/-- A decoded JSON value (the result of encoding/json decoding into
interface\x7b\x7d).  Numbers are modelled as integers. -/
inductive JValue where
  | null : JValue
  | bool : Bool → JValue
  | num : Int → JValue
  | str : String → JValue
  | arr : List JValue → JValue
  | obj : List (String × JValue) → JValue

/-- Go map lookup on an association list: first binding of the key. -/
def lookupBy {α : Type} (m : List (String × α)) (k : String) : Option α :=
  match m with
  | [] => none
  | p :: rest => if p.1 == k then some p.2 else lookupBy rest k

/-- Go map assignment `m[k] = v` on an association list: update the
binding in place when the key is present, otherwise append it. -/
def mapSet {α : Type} (m : List (String × α)) (k : String) (v : α) : List (String × α) :=
  if m.any (fun p => p.1 == k) then
    m.map (fun p => if p.1 == k then (k, v) else p)
  else
    m ++ [(k, v)]

/-- fmt.Sprintf of a decoded JSON value with the %v verb (models/cdr.go
GetString fallback for non-string field values). -/
def sprintValue : JValue → String
  | JValue.null => "<nil>"
  | JValue.bool b => if b then "true" else "false"
  | JValue.num n => toString n
  | JValue.str s => s
  | JValue.arr items =>
      "[" ++ String.intercalate " " (items.attach.map (fun x => sprintValue x.1)) ++ "]"
  | JValue.obj fields =>
      "map[" ++ String.intercalate " "
        (fields.attach.map (fun x => x.1.1 ++ ":" ++ sprintValue x.1.2)) ++ "]"
termination_by v => sizeOf v
decreasing_by
  · have h := List.sizeOf_lt_of_mem x.2
    simp only [JValue.arr.sizeOf_spec]
    omega
  · rcases x with ⟨⟨a, b⟩, hx⟩
    have h := List.sizeOf_lt_of_mem hx
    simp only [Prod.mk.sizeOf_spec] at h
    simp only [JValue.obj.sizeOf_spec]
    omega

/-- models/cdr.go FlexibleCDR: the schema-less record envelope.
`RawData` is the decoded field map, `DetectedFields` the list of field
names actually received. -/
structure FlexibleCDR where
  RawData : List (String × JValue)
  DetectedFields : List String

/-- FlexibleCDR.UnmarshalJSON: keep the raw map and catalog its keys. -/
def FlexibleCDR.ofRawData (m : List (String × JValue)) : FlexibleCDR :=
  { RawData := m, DetectedFields := m.map Prod.fst }

/-- models/cdr.go GetString: empty string when the field is absent or
null, the string itself for string values, and a %v rendering of any
other value. -/
def FlexibleCDR.GetString (f : FlexibleCDR) (field : String) : String :=
  match lookupBy f.RawData field with
  | none => ""
  | some JValue.null => ""
  | some (JValue.str s) => s
  | some v => sprintValue v

/-- models/cdr.go GetID: the modern "id" field, else the legacy
"cdr_id" field. -/
def FlexibleCDR.GetID (f : FlexibleCDR) : String :=
  let i := f.GetString "id"
  if i ≠ "" then i else f.GetString "cdr_id"

/-- Loop body of deduplicateCDRs with the `seen` set accumulated so far
(Go keeps a map\x5bstring\x5dbool; membership in the list is the same
test). -/
def deduplicateCDRsGo : List FlexibleCDR → List String → List FlexibleCDR
  | [], _ => []
  | cdr :: rest, seen =>
      if cdr.GetID ≠ "" ∧ cdr.GetID ∉ seen then
        cdr :: deduplicateCDRsGo rest (cdr.GetID :: seen)
      else
        deduplicateCDRsGo rest seen

/-- services deduplicateCDRs: keep the first record for each non-empty
identity, drop records whose identity is empty. -/
def deduplicateCDRs (cdrs : List FlexibleCDR) : List FlexibleCDR :=
  deduplicateCDRsGo cdrs []

/-- services CDRSearchCriteria.  `StartDate`/`EndDate` hold the
formatted date string of the underlying time.Time when present. -/
structure CDRSearchCriteria where
  Domain : String := ""
  User : String := ""
  Site : String := ""
  CallID : String := ""
  StartDate : Option String := none
  EndDate : Option String := none
  Start : Int := 0
  Limit : Int := 0
  Raw : Bool := false
  OriginatingNumber : String := ""
  TerminatingNumber : String := ""
  AnyPhoneNumber : String := ""

/-- services CDREndpointConfig. -/
structure CDREndpointConfig where
  Name : String
  URLTemplate : String
  RequiredParams : List String
  OptionalParams : List String
  SupportsRaw : Bool
  Description : String
deriving DecidableEq

/-- The static endpoint catalog of GetSupportedEndpoints. -/
def GetSupportedEndpoints : List CDREndpointConfig :=
  [{ Name := "global_cdrs", URLTemplate := "/ns-api/v2/cdrs",
     RequiredParams := [], OptionalParams := ["start", "limit", "raw"],
     SupportsRaw := true,
     Description := "All CDRs system-wide (supports raw=yes)" },
   { Name := "domain_cdrs", URLTemplate := "/ns-api/v2/domains/\x7bdomain\x7d/cdrs",
     RequiredParams := ["domain"], OptionalParams := ["start", "limit", "raw"],
     SupportsRaw := true,
     Description := "CDRs for specific domain (supports raw=yes)" },
   { Name := "user_cdrs", URLTemplate := "/ns-api/v2/domains/\x7bdomain\x7d/users/\x7buser\x7d/cdrs",
     RequiredParams := ["domain", "user"], OptionalParams := ["start", "limit", "raw"],
     SupportsRaw := true,
     Description := "CDRs for specific user (supports raw=yes)" },
   { Name := "site_cdrs", URLTemplate := "/ns-api/v2/domains/\x7bdomain\x7d/sites/\x7bsite\x7d/cdrs",
     RequiredParams := ["domain", "site"], OptionalParams := ["start", "limit", "raw"],
     SupportsRaw := true,
     Description := "CDRs for specific site (supports raw=yes)" },
   { Name := "global_count", URLTemplate := "/ns-api/v2/cdrs/count",
     RequiredParams := [], OptionalParams := [],
     SupportsRaw := false,
     Description := "Count and sum of all CDRs" },
   { Name := "domain_count", URLTemplate := "/ns-api/v2/domains/\x7bdomain\x7d/cdrs/count",
     RequiredParams := ["domain"], OptionalParams := [],
     SupportsRaw := false,
     Description := "Count and sum for domain CDRs" },
   { Name := "user_count", URLTemplate := "/ns-api/v2/domains/\x7bdomain\x7d/users/\x7buser\x7d/cdrs/count",
     RequiredParams := ["domain", "user"], OptionalParams := [],
     SupportsRaw := false,
     Description := "Count and sum for user CDRs" }]

/-- Whether `sub` is a leading run of `s` (character lists). -/
def hasPfx : List Char → List Char → Bool
  | [], _ => true
  | _ :: _, [] => false
  | c :: cs, d :: ds => c == d && hasPfx cs ds

/-- Whether `sub` occurs somewhere inside `s` (character lists). -/
def hasSub (sub : List Char) : List Char → Bool
  | [] => sub.isEmpty
  | c :: t => hasPfx sub (c :: t) || hasSub sub t

/-- strings.Contains. -/
def stringsContains (s sub : String) : Bool :=
  hasSub sub.toList s.toList

/-- services hasRequiredParams: every required parameter name must be
backed by a non-empty criteria field; parameter names outside the
switch are ignored (Go switch with no default). -/
def hasRequiredParams (endpoint : CDREndpointConfig) (criteria : CDRSearchCriteria) : Bool :=
  endpoint.RequiredParams.all (fun required =>
    if required == "domain" then criteria.Domain != ""
    else if required == "user" then criteria.User != ""
    else if required == "site" then criteria.Site != ""
    else true)

/-- services selectEndpointsToQuery: skip count endpoints, keep
endpoints whose required parameters are satisfied, and fall back to the
global_cdrs entry when nothing was selected. -/
def selectEndpointsToQuery (criteria : CDRSearchCriteria) : List CDREndpointConfig :=
  let endpoints := GetSupportedEndpoints
  let selected := endpoints.filter (fun endpoint =>
    !stringsContains endpoint.Name "count" && hasRequiredParams endpoint criteria)
  if selected.isEmpty then
    match endpoints.find? (fun endpoint => endpoint.Name == "global_cdrs") with
    | some endpoint => [endpoint]
    | none => []
  else
    selected

/-- The characters Go's url.QueryEscape leaves unescaped. -/
def isUnreservedQueryChar (c : Char) : Bool :=
  c.isAlphanum || c == '-' || c == '_' || c == '.' || c == '~'

/-- Upper-case hexadecimal digit of a value below 16. -/
def hexDigit (n : Nat) : Char :=
  if n < 10 then Char.ofNat (48 + n) else Char.ofNat (55 + n)

/-- url.QueryEscape of one character (code points above 127 would be
percent-encoded per UTF-8 byte in Go; they do not occur in the data the
engine escapes and are kept to a single escape here). -/
def queryEscapeChar (c : Char) : List Char :=
  if isUnreservedQueryChar c then [c]
  else if c == ' ' then ['+']
  else ['%', hexDigit (c.toNat / 16 % 16), hexDigit (c.toNat % 16)]

/-- url.QueryEscape. -/
def queryEscape (s : String) : String :=
  String.mk ((s.toList.map queryEscapeChar).flatten)

/-- Insertion into a lexicographically sorted list of keys. -/
def insertSorted (k : String) : List String → List String
  | [] => [k]
  | x :: xs => if decide (k ≤ x) then k :: x :: xs else x :: insertSorted k xs

/-- sort.Strings on the key set, as url.Values.Encode performs. -/
def sortStrings (l : List String) : List String :=
  l.foldr insertSorted []

/-- url.Values.Encode: keys sorted, each key's values in insertion
order, entries joined by ampersands. -/
def encodeParams (params : List (String × String)) : String :=
  let keys := sortStrings ((params.map Prod.fst).eraseDups)
  String.intercalate "&"
    ((keys.map (fun k =>
      (params.filter (fun p => p.1 == k)).map
        (fun p => queryEscape k ++ "=" ++ queryEscape p.2))).flatten)

/-- The query parameters accumulated by buildEndpointURL via
params.Add, in source order: pagination offset and limit, the raw flag
when the endpoint supports raw and the criteria request it, date range,
call id and the two phone-number filters. -/
def buildParams (endpointConfig : CDREndpointConfig) (criteria : CDRSearchCriteria) :
    List (String × String) :=
  (if criteria.Start > 0 then [("start", toString criteria.Start)] else []) ++
  (if criteria.Limit > 0 then [("limit", toString criteria.Limit)] else []) ++
  (if endpointConfig.SupportsRaw && criteria.Raw then [("raw", "yes")] else []) ++
  (match criteria.StartDate with
   | some d => [("start", d)]
   | none => []) ++
  (match criteria.EndDate with
   | some d => [("end", d)]
   | none => []) ++
  (if criteria.CallID != "" then [("call_id", criteria.CallID)] else []) ++
  (if criteria.OriginatingNumber != "" then [("orig_number", criteria.OriginatingNumber)] else []) ++
  (if criteria.TerminatingNumber != "" then [("term_number", criteria.TerminatingNumber)] else [])

/-- services buildEndpointURL: substitute the path placeholders, then
append the encoded query when any parameter was added.  The Go function
always returns a nil error. -/
def buildEndpointURL (baseURL : String) (endpointConfig : CDREndpointConfig)
    (criteria : CDRSearchCriteria) : String :=
  let urlPath :=
    ((endpointConfig.URLTemplate.replace "\x7bdomain\x7d" criteria.Domain).replace
      "\x7buser\x7d" criteria.User).replace "\x7bsite\x7d" criteria.Site
  let params := buildParams endpointConfig criteria
  let fullURL := baseURL ++ urlPath
  if params.length > 0 then fullURL ++ "?" ++ encodeParams params else fullURL

/-- services EndpointResult.  QueryTime is carried in milliseconds and
is supplied externally where a concrete value matters. -/
structure EndpointResult where
  EndpointName : String := ""
  URL : String := ""
  RecordCount : Nat := 0
  Success : Bool := false
  Error : String := ""
  QueryTimeMs : Nat := 0
  HTTPStatus : Nat := 0
  CDRs : List FlexibleCDR := []
  RawDataUsed : Bool := false
  DiscoveredData : Bool := false

/-- Outcome of one HTTP GET: a transport error, or a status with status
text and the decoded JSON body (`none` models a body that fails JSON
decoding). -/
inductive HTTPOutcome where
  | transportError : String → HTTPOutcome
  | response : Nat → String → Option JValue → HTTPOutcome

/-- services convertMapToFlexibleCDR: marshal the decoded map back to
JSON and unmarshal into a FlexibleCDR.  On maps produced by the JSON
decoder this round trip cannot fail, so the error branch of the Go
function is unreachable; the Except shape of the signature is kept. -/
def convertMapToFlexibleCDR (data : List (String × JValue)) : Except String FlexibleCDR :=
  Except.ok (FlexibleCDR.ofRawData data)

/-- One element of the array branch of convertAPIResponseToCDRs: a
record object that converts successfully, or nothing (non-object items
and failed conversions are skipped). -/
def decodedRecord (item : JValue) : Option FlexibleCDR :=
  match item with
  | JValue.obj cdrData =>
      match convertMapToFlexibleCDR cdrData with
      | Except.ok cdr => some cdr
      | Except.error _ => none
  | _ => none

/-- A looked-up object member is smaller than the whole object. -/
theorem sizeOf_lookupBy {m : List (String × JValue)} {k : String} {v : JValue}
    (h : lookupBy m k = some v) : sizeOf v < 1 + sizeOf m := by
  induction m with
  | nil => simp [lookupBy] at h
  | cons p rest ih =>
      rw [lookupBy] at h
      by_cases hk : p.1 == k
      · rw [if_pos hk] at h
        cases h
        rcases p with ⟨a, b⟩
        simp only [List.cons.sizeOf_spec, Prod.mk.sizeOf_spec]
        omega
      · rw [if_neg hk] at h
        have := ih h
        simp only [List.cons.sizeOf_spec]
        omega

/-- services convertAPIResponseToCDRs: a bare array converts its object
items, skipping items that are not objects or fail to convert; an
object with a data member recurses on that member; any other object is
a single record; anything else is an unexpected format error. -/
def convertAPIResponseToCDRs : JValue → Except String (List FlexibleCDR)
  | JValue.arr items => Except.ok (items.filterMap decodedRecord)
  | JValue.obj response =>
      match h : lookupBy response "data" with
      | some data => convertAPIResponseToCDRs data
      | none =>
          match convertMapToFlexibleCDR response with
          | Except.ok cdr => Except.ok [cdr]
          | Except.error e => Except.error e
  | _ => Except.error "unexpected API response format"
termination_by v => sizeOf v
decreasing_by
  have := sizeOf_lookupBy h
  simp only [JValue.obj.sizeOf_spec]
  omega

/-- services queryEndpoint: build the URL, perform the request through
the network oracle, and classify the outcome exactly as the source
does — transport error, non-200 status, JSON decode error, conversion
error, or success with the converted records counted. -/
def queryEndpoint (http : String → HTTPOutcome) (baseURL : String)
    (endpointConfig : CDREndpointConfig) (criteria : CDRSearchCriteria) : EndpointResult :=
  let url := buildEndpointURL baseURL endpointConfig criteria
  let result : EndpointResult :=
    { EndpointName := endpointConfig.Name, CDRs := [], URL := url,
      RawDataUsed := endpointConfig.SupportsRaw && criteria.Raw }
  match http url with
  | HTTPOutcome.transportError msg =>
      { result with Success := false, Error := "HTTP request error: " ++ msg }
  | HTTPOutcome.response status statusText body =>
      let result := { result with HTTPStatus := status }
      if status ≠ 200 then
        { result with Success := false, Error := "HTTP " ++ toString status ++ ": " ++ statusText }
      else
        match body with
        | none => { result with Success := false, Error := "JSON decode error: invalid character" }
        | some apiResponse =>
            match convertAPIResponseToCDRs apiResponse with
            | Except.error e =>
                { result with Success := false, Error := "CDR conversion error: " ++ e }
            | Except.ok cdrs =>
                { result with CDRs := cdrs, RecordCount := cdrs.length, Success := true }

/-- The session fields accumulated by the endpoint loop of
GetComprehensiveCDRs. -/
structure AggState where
  EndpointResults : List EndpointResult
  AllCDRs : List FlexibleCDR
  CDRsByEndpoint : List (String × List FlexibleCDR)
  Errors : List String

/-- The error string appended for a failed endpoint. -/
def errorEntry (er : EndpointResult) : String :=
  er.EndpointName ++ ": " ++ er.Error

/-- One iteration of the endpoint loop of GetComprehensiveCDRs
(services/results_store.go lines 294-330), kept exactly as written: the
success branch of the logging block stores the endpoint's records and
appends them to AllCDRs, the failure branch appends the error string;
then a second conditional repeats the store and append, and a final
conditional appends the error string again. -/
def stepEndpoint (st : AggState) (er : EndpointResult) : AggState :=
  let st1 : AggState := { st with EndpointResults := st.EndpointResults ++ [er] }
  let st2 : AggState :=
    if er.Success then
      if 0 < er.CDRs.length then
        { st1 with CDRsByEndpoint := mapSet st1.CDRsByEndpoint er.EndpointName er.CDRs,
                   AllCDRs := st1.AllCDRs ++ er.CDRs }
      else st1
    else
      { st1 with Errors := st1.Errors ++ [errorEntry er] }
  let st3 : AggState :=
    if er.Success ∧ 0 < er.CDRs.length then
      { st2 with CDRsByEndpoint := mapSet st2.CDRsByEndpoint er.EndpointName er.CDRs,
                 AllCDRs := st2.AllCDRs ++ er.CDRs }
    else st2
  if !er.Success then
    { st3 with Errors := st3.Errors ++ [errorEntry er] }
  else st3

/-- The endpoint loop over a list of per-endpoint outcomes. -/
def aggregateEndpointResults (outs : List EndpointResult) : AggState :=
  outs.foldl stepEndpoint ⟨[], [], [], []⟩

/-- services countTotalCDRs: the summed record-list lengths of the
per-endpoint map. -/
def countTotalCDRs (cdrsByEndpoint : List (String × List FlexibleCDR)) : Nat :=
  (cdrsByEndpoint.map (fun p => p.2.length)).sum

/-- services CDRDiscoveryResult.  Timestamps are abstract ticks. -/
structure CDRDiscoveryResult where
  SessionID : String
  SearchCriteria : CDRSearchCriteria
  StartTime : Nat
  EndTime : Nat
  TotalCDRs : Nat
  UniqueCDRs : Nat
  EndpointResults : List EndpointResult
  AllCDRs : List FlexibleCDR
  CDRsByEndpoint : List (String × List FlexibleCDR)
  Errors : List String

/-- The tail of GetComprehensiveCDRs (lines 332-344): run the endpoint
loop, deduplicate AllCDRs, and fill in the unique and total counters. -/
def finalizeDiscovery (sessionID : String) (criteria : CDRSearchCriteria)
    (startTime endTime : Nat) (outs : List EndpointResult) : CDRDiscoveryResult :=
  let st := aggregateEndpointResults outs
  let allCDRs := deduplicateCDRs st.AllCDRs
  { SessionID := sessionID, SearchCriteria := criteria,
    StartTime := startTime, EndTime := endTime,
    TotalCDRs := countTotalCDRs st.CDRsByEndpoint,
    UniqueCDRs := allCDRs.length,
    EndpointResults := st.EndpointResults, AllCDRs := allCDRs,
    CDRsByEndpoint := st.CDRsByEndpoint, Errors := st.Errors }

/-- A discovery run applied directly to a list of per-endpoint
outcomes, with fixed session identity and timestamps. -/
def discoverOutcome (outs : List EndpointResult) : CDRDiscoveryResult :=
  finalizeDiscovery "session" {} 0 0 outs

/-- services GetComprehensiveCDRs: default the limit, force raw mode,
select the endpoints, query each one sequentially and aggregate.  The
session identifier is derived from the supplied clock tick as
generateSessionID derives it from time.Now().UnixNano(). -/
def GetComprehensiveCDRs (now : Nat) (http : String → HTTPOutcome) (baseURL : String)
    (criteria0 : CDRSearchCriteria) : CDRDiscoveryResult :=
  let criteria1 := if criteria0.Limit == 0 then { criteria0 with Limit := 100 } else criteria0
  let criteria := { criteria1 with Raw := true }
  let endpointsToQuery := selectEndpointsToQuery criteria
  finalizeDiscovery ("cdr_session_" ++ toString now) criteria now now
    (endpointsToQuery.map (fun endpointConfig => queryEndpoint http baseURL endpointConfig criteria))

/-- services ResultsStore: the in-memory session map and its TTL
(ticks). -/
structure ResultsStore where
  results : List (String × CDRDiscoveryResult)
  ttl : Nat

/-- The results store together with the deletions scheduled by the
cleanup goroutine each Store spawns: pairs of session identifier and
the tick at which the sleep of that goroutine elapses. -/
structure TimedResultsStore where
  store : ResultsStore
  pending : List (String × Nat)

/-- services NewResultsStore. -/
def NewResultsStore (ttl : Nat) : TimedResultsStore :=
  { store := { results := [], ttl := ttl }, pending := [] }

/-- Run every scheduled deletion whose due time has been reached: each
one performs Delete of its session identifier.  This is the prompt-
timer reading of the sleep-then-delete goroutines, applied before any
later operation on the store. -/
def fireDue (now : Nat) (s : TimedResultsStore) : TimedResultsStore :=
  { store := { s.store with
      results := s.store.results.filter (fun e =>
        !(s.pending.any (fun p => p.1 == e.1 && decide (p.2 ≤ now)))) },
    pending := s.pending.filter (fun p => !(decide (p.2 ≤ now))) }

/-- services ResultsStore.Store: save the result under the session
identifier and schedule its deletion after the TTL. -/
def TimedResultsStore.Store (s : TimedResultsStore) (now : Nat) (sessionID : String)
    (result : CDRDiscoveryResult) : TimedResultsStore :=
  let s := fireDue now s
  { store := { s.store with results := mapSet s.store.results sessionID result },
    pending := s.pending ++ [(sessionID, now + s.store.ttl)] }

/-- services ResultsStore.Get: a non-mutating lookup of the session
identifier (the store it returns only reflects deletions already
due). -/
def TimedResultsStore.Get (s : TimedResultsStore) (now : Nat) (sessionID : String) :
    Option CDRDiscoveryResult × TimedResultsStore :=
  let s := fireDue now s
  (lookupBy s.store.results sessionID, s)

/-- services ResultsStore.Delete. -/
def TimedResultsStore.Delete (s : TimedResultsStore) (now : Nat) (sessionID : String) :
    TimedResultsStore :=
  let s := fireDue now s
  { s with store := { s.store with
      results := s.store.results.filter (fun e => !(e.1 == sessionID)) } }

/-- services ResultsStore.Clear. -/
def TimedResultsStore.Clear (s : TimedResultsStore) (now : Nat) : TimedResultsStore :=
  let s := fireDue now s
  { s with store := { s.store with results := [] } }

/-- Naive JSON string quoting (the engine's identifiers and criteria
contain no characters that json.Marshal would escape). -/
def jsonQuote (s : String) : String :=
  "\"" ++ s ++ "\""

/-- json.Marshal of CDRSearchCriteria, following the field order and
omitempty tags of the Go struct: the three phone-number fields carry no
omitempty tag and are always present. -/
def serializeCriteria (c : CDRSearchCriteria) : String :=
  let fields :=
    (if c.Domain != "" then [jsonQuote "domain" ++ ":" ++ jsonQuote c.Domain] else []) ++
    (if c.User != "" then [jsonQuote "user" ++ ":" ++ jsonQuote c.User] else []) ++
    (if c.Site != "" then [jsonQuote "site" ++ ":" ++ jsonQuote c.Site] else []) ++
    (if c.CallID != "" then [jsonQuote "call_id" ++ ":" ++ jsonQuote c.CallID] else []) ++
    (match c.StartDate with
     | some d => [jsonQuote "start_date" ++ ":" ++ jsonQuote d]
     | none => []) ++
    (match c.EndDate with
     | some d => [jsonQuote "end_date" ++ ":" ++ jsonQuote d]
     | none => []) ++
    (if c.Start != 0 then [jsonQuote "start" ++ ":" ++ toString c.Start] else []) ++
    (if c.Limit != 0 then [jsonQuote "limit" ++ ":" ++ toString c.Limit] else []) ++
    (if c.Raw then [jsonQuote "raw" ++ ":true"] else []) ++
    [jsonQuote "originating_number" ++ ":" ++ jsonQuote c.OriginatingNumber,
     jsonQuote "terminating_number" ++ ":" ++ jsonQuote c.TerminatingNumber,
     jsonQuote "any_phone_number" ++ ":" ++ jsonQuote c.AnyPhoneNumber]
  "\x7b" ++ String.intercalate "," fields ++ "\x7d"

/-- json.Marshal of the session's error list. -/
def serializeErrors (errors : List String) : String :=
  "[" ++ String.intercalate "," (errors.map jsonQuote) ++ "]"

/-- json.Marshal of a record's raw field map. -/
def renderJValue : JValue → String
  | JValue.null => "null"
  | JValue.bool b => if b then "true" else "false"
  | JValue.num n => toString n
  | JValue.str s => jsonQuote s
  | JValue.arr items =>
      "[" ++ String.intercalate "," (items.attach.map (fun x => renderJValue x.1)) ++ "]"
  | JValue.obj fields =>
      "\x7b" ++ String.intercalate ","
        (fields.attach.map (fun x => jsonQuote x.1.1 ++ ":" ++ renderJValue x.1.2)) ++ "\x7d"
termination_by v => sizeOf v
decreasing_by
  · have h := List.sizeOf_lt_of_mem x.2
    simp only [JValue.arr.sizeOf_spec]
    omega
  · rcases x with ⟨⟨a, b⟩, hx⟩
    have h := List.sizeOf_lt_of_mem hx
    simp only [Prod.mk.sizeOf_spec] at h
    simp only [JValue.obj.sizeOf_spec]
    omega

/-- A row of the discovery_sessions table (created by createTables). -/
structure DiscoverySessionRow where
  session_id : String
  search_criteria : String
  start_time : Nat
  end_time : Nat
  total_cdrs : Nat
  unique_cdrs : Nat
  endpoints_queried : Nat
  successful_endpoints : Nat
  failed_endpoints : Nat
  total_query_time_ms : Nat
  raw_data_used : Bool
  errors : String

/-- A row of the endpoint_results table.  The Go insert also passes a
result.ParameterCount, a field EndpointResult does not declare (a
left-over of a superseded draft); it is carried as zero. -/
structure EndpointResultRow where
  session_id : String
  endpoint_name : String
  endpoint_url : String
  record_count : Nat
  success : Bool
  error_message : String
  query_time_ms : Nat
  http_status : Nat
  raw_data_used : Bool
  parameter_count : Nat
  discovered_data : Bool

/-- A row of the session_cdrs table, unique per
(session_id, cdr_id, endpoint_source). -/
structure SessionCDRRow where
  session_id : String
  cdr_id : String
  endpoint_source : String
  raw_json : String
  field_count : Nat

/-- A row of the discovery_analytics table.  Its only uniqueness is the
autoincrement id; discovery_value keeps Go's float64 ratio as a
rational (a zero-millisecond query, +Inf in Go, is carried as 0). -/
structure DiscoveryAnalyticsRow where
  parameter_combination : String
  endpoint_name : String
  success_count : Nat
  total_cdrs_found : Nat
  avg_query_time_ms : Nat
  last_successful_use : Nat
  discovery_value : ℚ

/-- The persistent store: the four tables StoreDiscoverySession
writes. -/
structure DiscoveryDB where
  discovery_sessions : List DiscoverySessionRow
  endpoint_results : List EndpointResultRow
  session_cdrs : List SessionCDRRow
  discovery_analytics : List DiscoveryAnalyticsRow

/-- The freshly created store. -/
def emptyDB : DiscoveryDB :=
  { discovery_sessions := [], endpoint_results := [],
    session_cdrs := [], discovery_analytics := [] }

/-- The session row built by StoreDiscoverySession from a discovery
result and the metrics it computes over the endpoint results. -/
def mkDiscoverySessionRow (r : CDRDiscoveryResult) : DiscoverySessionRow :=
  { session_id := r.SessionID,
    search_criteria := serializeCriteria r.SearchCriteria,
    start_time := r.StartTime, end_time := r.EndTime,
    total_cdrs := r.TotalCDRs, unique_cdrs := r.UniqueCDRs,
    endpoints_queried := r.EndpointResults.length,
    successful_endpoints := (r.EndpointResults.filter (fun er => er.Success)).length,
    failed_endpoints := (r.EndpointResults.filter (fun er => !er.Success)).length,
    total_query_time_ms := (r.EndpointResults.map (fun er => er.QueryTimeMs)).sum,
    raw_data_used := r.EndpointResults.any (fun er => er.RawDataUsed),
    errors := serializeErrors r.Errors }

/-- INSERT OR REPLACE INTO discovery_sessions: session_id is the
primary key, so a conflicting row is replaced. -/
def insertDiscoverySessionStep (r : CDRDiscoveryResult) (db : DiscoveryDB) : DiscoveryDB :=
  { db with discovery_sessions :=
      (db.discovery_sessions.filter (fun row => !(row.session_id == r.SessionID))) ++
        [mkDiscoverySessionRow r] }

/-- storeEndpointResult: plain INSERT INTO endpoint_results. -/
def storeEndpointResultStep (sessionID : String) (er : EndpointResult)
    (db : DiscoveryDB) : DiscoveryDB :=
  { db with endpoint_results := db.endpoint_results ++
      [{ session_id := sessionID, endpoint_name := er.EndpointName,
         endpoint_url := er.URL, record_count := er.RecordCount,
         success := er.Success, error_message := er.Error,
         query_time_ms := er.QueryTimeMs, http_status := er.HTTPStatus,
         raw_data_used := er.RawDataUsed, parameter_count := 0,
         discovered_data := er.DiscoveredData }] }

/-- storeSessionCDR: INSERT OR IGNORE INTO session_cdrs, ignored when a
row with the same (session_id, cdr_id, endpoint_source) exists. -/
def storeSessionCDRStep (sessionID endpoint : String) (cdr : FlexibleCDR)
    (db : DiscoveryDB) : DiscoveryDB :=
  if db.session_cdrs.any (fun row =>
      row.session_id == sessionID && row.cdr_id == cdr.GetID &&
        row.endpoint_source == endpoint) then
    db
  else
    { db with session_cdrs := db.session_cdrs ++
        [{ session_id := sessionID, cdr_id := cdr.GetID,
           endpoint_source := endpoint,
           raw_json := renderJValue (JValue.obj cdr.RawData),
           field_count := cdr.DetectedFields.length }] }

/-- One analytics statement of updateDiscoveryAnalytics.  The INSERT OR
REPLACE never finds a conflict — discovery_analytics has no uniqueness
beyond its autoincrement id — so a fresh row is always appended; the
correlated subquery reads the success_count of a previous row for the
(parameter_combination, endpoint_name) pair (SQLite picks an
unspecified matching row; the first in insertion order is used here)
and the new row stores that count plus one together with this run's
record count, query time, timestamp and records-per-second value. -/
def updateDiscoveryAnalyticsStep (now : Nat) (criteriaJSON : String) (er : EndpointResult)
    (db : DiscoveryDB) : DiscoveryDB :=
  let prior :=
    match db.discovery_analytics.find? (fun row =>
      row.parameter_combination == criteriaJSON && row.endpoint_name == er.EndpointName) with
    | some row => row.success_count
    | none => 0
  { db with discovery_analytics := db.discovery_analytics ++
      [{ parameter_combination := criteriaJSON, endpoint_name := er.EndpointName,
         success_count := prior + 1, total_cdrs_found := er.RecordCount,
         avg_query_time_ms := er.QueryTimeMs, last_successful_use := now,
         discovery_value := (er.RecordCount : ℚ) * 1000 / (er.QueryTimeMs : ℚ) }] }

/-- The statement executions of StoreDiscoverySession, in source order:
the session upsert, one insert per endpoint result, one insert per
record of each endpoint's record list, and one analytics statement per
successful endpoint with a positive record count. -/
def mkStoreSteps (now : Nat) (r : CDRDiscoveryResult) : List (DiscoveryDB → DiscoveryDB) :=
  insertDiscoverySessionStep r ::
  (r.EndpointResults.map (fun er => storeEndpointResultStep r.SessionID er) ++
   ((r.CDRsByEndpoint.map (fun p =>
       p.2.map (fun cdr => storeSessionCDRStep r.SessionID p.1 cdr))).flatten ++
    (r.EndpointResults.filter (fun er => er.Success && decide (0 < er.RecordCount))).map
      (fun er => updateDiscoveryAnalyticsStep now (serializeCriteria r.SearchCriteria) er)))

/-- Sequential execution of the transaction's statements on the
transaction state, starting at statement index `i`; the failure oracle
says which statement executions fail. -/
def runTx (fails : Nat → Bool) : List (DiscoveryDB → DiscoveryDB) → Nat → DiscoveryDB →
    Except String DiscoveryDB
  | [], _, db => Except.ok db
  | step :: rest, i, db =>
      if fails i then Except.error "exec failed"
      else runTx fails rest (i + 1) (step db)

/-- All statements applied in order (the committed transaction). -/
def applySteps (steps : List (DiscoveryDB → DiscoveryDB)) (db : DiscoveryDB) : DiscoveryDB :=
  steps.foldl (fun d step => step d) db

/-- services StoreDiscoverySession: run every statement inside one
transaction; on the first failure the deferred rollback discards the
transaction state and the error is returned, otherwise the commit
installs it. -/
def StoreDiscoverySession (fails : Nat → Bool) (now : Nat) (db : DiscoveryDB)
    (r : CDRDiscoveryResult) : DiscoveryDB × Option String :=
  match runTx fails (mkStoreSteps now r) 0 db with
  | Except.ok txState => (txState, none)
  | Except.error e => (db, some e)

/-- The endpoint results the loop treats as contributing records:
successful with a non-empty record list. -/
def goodOuts (outs : List EndpointResult) : List EndpointResult :=
  outs.filter (fun er => er.Success && decide (0 < er.CDRs.length))

/-- The endpoint results the loop treats as failed. -/
def badOuts (outs : List EndpointResult) : List EndpointResult :=
  outs.filter (fun er => !er.Success)

/-- The identities of every record of every contributing endpoint, in
arrival order. -/
def successIds (outs : List EndpointResult) : List String :=
  ((goodOuts outs).map (fun er => er.CDRs.map FlexibleCDR.GetID)).flatten

/-- No record identity is visible from two distinct endpoints of the
run. -/
def noCrossEndpointDuplicate (outs : List EndpointResult) : Prop :=
  ∀ er₁ ∈ outs, ∀ er₂ ∈ outs, er₁.EndpointName ≠ er₂.EndpointName →
    ∀ c₁ ∈ er₁.CDRs, ∀ c₂ ∈ er₂.CDRs, c₁.GetID ≠ c₂.GetID

/-- A record whose only field is the given modern identity. -/
def cdrWithId (i : String) : FlexibleCDR :=
  FlexibleCDR.ofRawData [("id", JValue.str i)]

/-- A record carrying neither the modern nor the legacy identity
field. -/
def cdrNoId : FlexibleCDR :=
  FlexibleCDR.ofRawData [("note", JValue.str "x")]

/-- A successful endpoint outcome, as queryEndpoint shapes one. -/
def successOutcome (name : String) (cdrs : List FlexibleCDR) : EndpointResult :=
  { EndpointName := name, URL := "", RecordCount := cdrs.length, Success := true,
    Error := "", QueryTimeMs := 5, HTTPStatus := 200, CDRs := cdrs,
    RawDataUsed := true, DiscoveredData := false }

/-- A timed-out endpoint outcome, as the transport-error branch of
queryEndpoint shapes one. -/
def timeoutOutcome (name : String) : EndpointResult :=
  { EndpointName := name, URL := "", RecordCount := 0, Success := false,
    Error := "HTTP request error: context deadline exceeded", QueryTimeMs := 30000,
    HTTPStatus := 0, CDRs := [], RawDataUsed := true, DiscoveredData := false }

/-- Two endpoints each returning a record with identity rec-1. -/
def outsRec1 : List EndpointResult :=
  [successOutcome "global_cdrs" [cdrWithId "rec-1"],
   successOutcome "domain_cdrs" [cdrWithId "rec-1"]]

/-- One endpoint returning the same identity twice. -/
def outsSameEndpointDup : List EndpointResult :=
  [successOutcome "domain_cdrs" [cdrWithId "rec-1", cdrWithId "rec-1"]]

/-- One endpoint timing out and one returning three records with
distinct identities. -/
def outsC2 : List EndpointResult :=
  [timeoutOutcome "domain_cdrs",
   successOutcome "global_cdrs" [cdrWithId "a", cdrWithId "b", cdrWithId "c"]]

/-- One endpoint returning a single record with no identity field. -/
def outsEmptyId : List EndpointResult :=
  [successOutcome "global_cdrs" [cdrNoId]]

/-- Criteria of the analytics example runs. -/
def critC3 : CDRSearchCriteria :=
  { Domain := "a.com" }

/-- A discovery result for critC3 with one successful endpoint
returning three records. -/
def resultC3 (sid : String) : CDRDiscoveryResult :=
  finalizeDiscovery sid critC3 0 0
    [successOutcome "domain_cdrs" [cdrWithId "r1", cdrWithId "r2", cdrWithId "r3"]]

/-- The failure oracle under which no statement fails. -/
def noFail : Nat → Bool := fun _ => false

/-- The failure oracle under which the first statement fails. -/
def failAt0 : Nat → Bool := fun i => i == 0

/-- The store after persisting one session for critC3. -/
def dbAfterOne : DiscoveryDB :=
  (StoreDiscoverySession noFail 0 emptyDB (resultC3 "s1")).1

/-- The store after persisting a second session with the same criteria
and the same successful endpoint. -/
def dbAfterTwo : DiscoveryDB :=
  (StoreDiscoverySession noFail 0 dbAfterOne (resultC3 "s2")).1

/-- The analytics rows of a store matching one
(parameter_combination, endpoint_name) key. -/
def analyticsRowsFor (db : DiscoveryDB) (key name : String) : List DiscoveryAnalyticsRow :=
  db.discovery_analytics.filter (fun row =>
    row.parameter_combination == key && row.endpoint_name == name)

/-- The catalog-wide entry of the catalog (its first element). -/
def globalCdrsConfig : CDREndpointConfig :=
  { Name := "global_cdrs", URLTemplate := "/ns-api/v2/cdrs",
    RequiredParams := [], OptionalParams := ["start", "limit", "raw"],
    SupportsRaw := true,
    Description := "All CDRs system-wide (supports raw=yes)" }

/-- A data-wrapped response body whose array holds one well-formed
record object and one malformed (non-object) item. -/
def mExC9 : List (String × JValue) :=
  [("data", JValue.arr [JValue.obj [("id", JValue.str "a")], JValue.num 7])]

/-- A fresh results store with a TTL of 10 ticks. -/
def emptyStore10 : TimedResultsStore := NewResultsStore 10

/-- A small discovery result stored in the cache examples. -/
def resultEx : CDRDiscoveryResult := discoverOutcome []

/-- The store after Store of session sess at tick 0. -/
def storeAfterFirst : TimedResultsStore := emptyStore10.Store 0 "sess" resultEx

/-- The store after a second Store of the same session at tick 5. -/
def storeAfterSecond : TimedResultsStore := storeAfterFirst.Store 5 "sess" resultEx

/-! Helper lemmas about deduplication. -/

theorem deduplicateCDRsGo_ne_empty (l : List FlexibleCDR) :
    ∀ (seen : List String), ∀ c ∈ deduplicateCDRsGo l seen, c.GetID ≠ "" := by
  induction l with
  | nil => intro seen c hc; simp [deduplicateCDRsGo] at hc
  | cons d t ih =>
      intro seen c hc
      rw [deduplicateCDRsGo] at hc
      by_cases h : d.GetID ≠ "" ∧ d.GetID ∉ seen
      · rw [if_pos h] at hc
        rcases List.mem_cons.mp hc with h1 | h1
        · exact h1 ▸ h.1
        · exact ih _ c h1
      · rw [if_neg h] at hc
        exact ih _ c hc

theorem deduplicateCDRsGo_length (l : List FlexibleCDR) :
    ∀ (seen : List String),
      (deduplicateCDRsGo l seen).length =
        ((l.map FlexibleCDR.GetID).toFinset \ insert "" seen.toFinset).card := by
  induction l with
  | nil => intro seen; simp [deduplicateCDRsGo]
  | cons c t ih =>
      intro seen
      rw [deduplicateCDRsGo]
      by_cases h : c.GetID ≠ "" ∧ c.GetID ∉ seen
      · rw [if_pos h, List.length_cons, ih]
        simp only [List.map_cons, List.toFinset_cons]
        have ha : c.GetID ∉ insert "" seen.toFinset := by
          simp only [Finset.mem_insert, List.mem_toFinset]
          rintro (h1 | h1)
          · exact h.1 h1
          · exact h.2 h1
        rw [Finset.insert_sdiff_of_not_mem _ ha]
        rw [Finset.Insert.comm, Finset.sdiff_insert]
        by_cases hmem : c.GetID ∈ (t.map FlexibleCDR.GetID).toFinset \ insert "" seen.toFinset
        · rw [Finset.card_insert_of_mem hmem, Finset.card_erase_of_mem hmem]
          have : 0 < ((t.map FlexibleCDR.GetID).toFinset \ insert "" seen.toFinset).card :=
            Finset.card_pos.mpr ⟨_, hmem⟩
          omega
        · rw [Finset.card_insert_of_not_mem hmem, Finset.erase_eq_of_not_mem hmem]
      · rw [if_neg h, ih]
        have ha : c.GetID ∈ insert "" seen.toFinset := by
          rcases not_and_or.mp h with h1 | h1
          · simp only [ne_eq, not_not] at h1
            exact h1 ▸ Finset.mem_insert_self _ _
          · simp only [not_not] at h1
            exact Finset.mem_insert_of_mem (List.mem_toFinset.mpr h1)
        simp only [List.map_cons, List.toFinset_cons]
        rw [Finset.insert_sdiff_of_mem _ ha]

theorem deduplicateCDRs_length (l : List FlexibleCDR) :
    (deduplicateCDRs l).length =
      ((l.map FlexibleCDR.GetID).toFinset \ {""}).card := by
  rw [deduplicateCDRs, deduplicateCDRsGo_length]
  simp

/-! Helper lemmas about Go map assignment. -/

theorem mapSet_of_not_mem {α : Type} (m : List (String × α)) (k : String) (v : α)
    (h : k ∉ m.map Prod.fst) : mapSet m k v = m ++ [(k, v)] := by
  rw [mapSet, if_neg]
  simp only [List.any_eq_true, not_exists, not_and, Bool.not_eq_true]
  intro p hp
  rw [beq_eq_false_iff_ne]
  intro hk
  exact h (List.mem_map.mpr ⟨p, hp, hk⟩)

theorem mapSet_append_same {α : Type} (m : List (String × α)) (k : String) (v : α)
    (h : k ∉ m.map Prod.fst) : mapSet (m ++ [(k, v)]) k v = m ++ [(k, v)] := by
  rw [mapSet, if_pos]
  · rw [List.map_append]
    congr 1
    · have hm : ∀ p ∈ m, (if (p.1 == k) = true then (k, v) else p) = id p := by
        intro p hp
        simp only [id_eq]
        rw [if_neg]
        simp only [beq_iff_eq]
        intro hk
        exact h (List.mem_map.mpr ⟨p, hp, hk⟩)
      rw [List.map_congr_left hm, List.map_id]
    · simp
  · simp

/-! Characterization of the endpoint loop. -/

theorem stepEndpoint_good (st : AggState) (er : EndpointResult) (hs : er.Success = true)
    (hc : 0 < er.CDRs.length) (hk : er.EndpointName ∉ st.CDRsByEndpoint.map Prod.fst) :
    stepEndpoint st er =
      { EndpointResults := st.EndpointResults ++ [er],
        AllCDRs := st.AllCDRs ++ (er.CDRs ++ er.CDRs),
        CDRsByEndpoint := st.CDRsByEndpoint ++ [(er.EndpointName, er.CDRs)],
        Errors := st.Errors } := by
  rw [stepEndpoint]
  simp only [hs, if_true, if_pos hc, Bool.not_true, Bool.false_eq_true, if_false, true_and]
  rw [mapSet_of_not_mem _ _ _ hk]
  rw [mapSet_append_same _ _ _ hk]
  simp [List.append_assoc]

theorem stepEndpoint_emptyCDRs (st : AggState) (er : EndpointResult) (hs : er.Success = true)
    (hc : ¬ 0 < er.CDRs.length) :
    stepEndpoint st er = { st with EndpointResults := st.EndpointResults ++ [er] } := by
  rw [stepEndpoint]
  simp [hs, hc]

theorem stepEndpoint_bad (st : AggState) (er : EndpointResult) (hs : er.Success = false) :
    stepEndpoint st er =
      { st with EndpointResults := st.EndpointResults ++ [er],
                Errors := st.Errors ++ [errorEntry er, errorEntry er] } := by
  rw [stepEndpoint]
  simp [hs]

theorem aggregate_loop_char :
    ∀ (outs : List EndpointResult) (st : AggState),
      (outs.map EndpointResult.EndpointName).Nodup →
      (∀ k ∈ st.CDRsByEndpoint.map Prod.fst, k ∉ outs.map EndpointResult.EndpointName) →
      outs.foldl stepEndpoint st =
        { EndpointResults := st.EndpointResults ++ outs,
          AllCDRs := st.AllCDRs ++ ((goodOuts outs).map (fun er => er.CDRs ++ er.CDRs)).flatten,
          CDRsByEndpoint :=
            st.CDRsByEndpoint ++ (goodOuts outs).map (fun er => (er.EndpointName, er.CDRs)),
          Errors := st.Errors ++
            ((badOuts outs).map (fun er => [errorEntry er, errorEntry er])).flatten } := by
  intro outs
  induction outs with
  | nil => intro st _ _; simp [goodOuts, badOuts]
  | cons er rest ih =>
      intro st hnd hdisj
      have hner : er.EndpointName ∉ rest.map EndpointResult.EndpointName :=
        (List.nodup_cons.mp (by simpa using hnd)).1
      have hndr : (rest.map EndpointResult.EndpointName).Nodup :=
        (List.nodup_cons.mp (by simpa using hnd)).2
      have hkst : er.EndpointName ∉ st.CDRsByEndpoint.map Prod.fst := by
        intro hmem
        exact hdisj _ hmem (by simp)
      rw [List.foldl_cons]
      by_cases hs : er.Success = true
      · by_cases hc : 0 < er.CDRs.length
        · rw [stepEndpoint_good st er hs hc hkst]
          rw [ih _ hndr ?_]
          · have hgood : goodOuts (er :: rest) = er :: goodOuts rest := by
              simp [goodOuts, List.filter_cons, hs, hc]
            have hbad : badOuts (er :: rest) = badOuts rest := by
              simp [badOuts, List.filter_cons, hs]
            rw [hgood, hbad]
            simp [List.append_assoc]
          · intro k hk
            rw [List.map_append] at hk
            rcases List.mem_append.mp hk with h1 | h1
            · intro hmem
              exact hdisj _ h1 (List.mem_cons_of_mem _ hmem)
            · simp only [List.map_cons, List.map_nil, List.mem_singleton] at h1
              exact h1 ▸ hner
        · rw [stepEndpoint_emptyCDRs st er hs hc]
          rw [ih _ hndr ?_]
          · have hgood : goodOuts (er :: rest) = goodOuts rest := by
              simp only [goodOuts, List.filter_cons]
              rw [if_neg]
              simp only [Bool.and_eq_true, decide_eq_true_eq, not_and]
              intro _
              exact hc
            have hbad : badOuts (er :: rest) = badOuts rest := by
              simp [badOuts, List.filter_cons, hs]
            rw [hgood, hbad]
            simp [List.append_assoc]
          · intro k hk
            intro hmem
            exact hdisj _ hk (List.mem_cons_of_mem _ hmem)
      · have hs' : er.Success = false := by
          revert hs; cases er.Success <;> simp
        rw [stepEndpoint_bad st er hs']
        rw [ih _ hndr ?_]
        · have hgood : goodOuts (er :: rest) = goodOuts rest := by
            simp [goodOuts, List.filter_cons, hs']
          have hbad : badOuts (er :: rest) = er :: badOuts rest := by
            simp [badOuts, List.filter_cons, hs']
          rw [hgood, hbad]
          simp [List.append_assoc]
        · intro k hk
          intro hmem
          exact hdisj _ hk (List.mem_cons_of_mem _ hmem)

theorem toFinset_flatten_doubled (ls : List (List String)) :
    ((ls.map (fun l => l ++ l)).flatten).toFinset = ls.flatten.toFinset := by
  induction ls with
  | nil => rfl
  | cons l rest ih =>
      simp only [List.map_cons, List.flatten_cons, List.toFinset_append, ih,
        Finset.union_assoc, Finset.union_self]

theorem discoverOutcome_counts (outs : List EndpointResult)
    (hnd : (outs.map EndpointResult.EndpointName).Nodup) :
    (discoverOutcome outs).TotalCDRs = (successIds outs).length ∧
    (discoverOutcome outs).UniqueCDRs = ((successIds outs).toFinset \ {""}).card := by
  have hchar := aggregate_loop_char outs ⟨[], [], [], []⟩ hnd (by simp)
  rw [discoverOutcome, finalizeDiscovery]
  rw [aggregateEndpointResults] at *
  rw [hchar]
  simp only [List.nil_append]
  constructor
  · rw [countTotalCDRs, successIds]
    simp [List.map_map, Function.comp_def, List.length_flatten]
  · rw [deduplicateCDRs_length]
    congr 1
    rw [successIds]
    have hmap : ((goodOuts outs).map (fun er => er.CDRs ++ er.CDRs)).flatten.map
        FlexibleCDR.GetID =
        (((goodOuts outs).map (fun er => er.CDRs.map FlexibleCDR.GetID)).map
          (fun l => l ++ l)).flatten := by
      rw [List.map_flatten, List.map_map, List.map_map]
      congr 1
      apply List.map_congr_left
      intro er _
      simp [Function.comp_def, List.map_append]
    rw [hmap, toFinset_flatten_doubled]

theorem card_sdiff_le_length (S : List String) :
    (S.toFinset \ {""}).card ≤ S.length :=
  le_trans (Finset.card_le_card Finset.sdiff_subset) (List.toFinset_card_le S)

theorem card_sdiff_eq_length_iff (S : List String) :
    (S.toFinset \ {""}).card = S.length ↔ S.Nodup ∧ "" ∉ S := by
  constructor
  · intro h
    have h1 : S.toFinset.card ≤ S.length := List.toFinset_card_le S
    have h2 : (S.toFinset \ {""}).card ≤ S.toFinset.card :=
      Finset.card_le_card Finset.sdiff_subset
    have h3 : S.toFinset.card = S.length := by omega
    have h4 : (S.toFinset \ {""}).card = S.toFinset.card := by omega
    constructor
    · have hd : S.dedup.length = S.length := by
        rw [← List.card_toFinset]; exact h3
      have := List.Sublist.eq_of_length (List.dedup_sublist S) hd
      exact List.dedup_eq_self.mp this
    · intro hmem
      have hmem' : "" ∈ S.toFinset := List.mem_toFinset.mpr hmem
      have h5 : (S.toFinset \ {""}).card = S.toFinset.card - 1 := by
        rw [Finset.sdiff_singleton_eq_erase, Finset.card_erase_of_mem hmem']
      have hpos : 0 < S.toFinset.card := Finset.card_pos.mpr ⟨_, hmem'⟩
      omega
  · rintro ⟨hnd, hne⟩
    have heq : S.toFinset \ {""} = S.toFinset := by
      rw [Finset.sdiff_eq_self_iff_disjoint, Finset.disjoint_singleton_right]
      exact fun h => hne (List.mem_toFinset.mp h)
    rw [heq, List.toFinset_card_of_nodup hnd]

/-! Helper lemmas about transaction execution. -/

theorem runTx_ok (fails : Nat → Bool) :
    ∀ (steps : List (DiscoveryDB → DiscoveryDB)) (i : Nat) (db : DiscoveryDB),
      (∀ j, j < steps.length → fails (i + j) = false) →
      runTx fails steps i db = Except.ok (applySteps steps db) := by
  intro steps
  induction steps with
  | nil => intro i db _; rfl
  | cons step rest ih =>
      intro i db h
      have h0 : fails i = false := by simpa using h 0 (by simp)
      rw [runTx, if_neg (by simp [h0])]
      have hrest : ∀ j, j < rest.length → fails (i + 1 + j) = false := by
        intro j hj
        have := h (j + 1) (by simpa using Nat.succ_lt_succ hj)
        have harith : i + (j + 1) = i + 1 + j := by omega
        rwa [harith] at this
      exact ih (i + 1) (step db) hrest

theorem runTx_err (fails : Nat → Bool) :
    ∀ (steps : List (DiscoveryDB → DiscoveryDB)) (i : Nat) (db : DiscoveryDB),
      (∃ j, j < steps.length ∧ fails (i + j) = true) →
      ∃ e, runTx fails steps i db = Except.error e := by
  intro steps
  induction steps with
  | nil => rintro i db ⟨j, hj, _⟩; simp at hj
  | cons step rest ih =>
      rintro i db ⟨j, hj, hf⟩
      by_cases h0 : fails i = true
      · exact ⟨"exec failed", by rw [runTx, if_pos h0]⟩
      · have hj0 : j ≠ 0 := by
          intro hj0
          rw [hj0, Nat.add_zero] at hf
          exact h0 hf
        obtain ⟨j', rfl⟩ : ∃ j', j = j' + 1 := ⟨j - 1, by omega⟩
        rw [runTx, if_neg h0]
        apply ih (i + 1) (step db)
        refine ⟨j', by simpa using Nat.lt_of_succ_lt_succ hj, ?_⟩
        have harith : i + (j' + 1) = i + 1 + j' := by omega
        rwa [harith] at hf

/-! Helper lemmas about map lookup under filtering. -/

theorem lookupBy_none_of_any_false {α : Type} (k : String) :
    ∀ (m : List (String × α)), m.any (fun p => p.1 == k) = false →
      lookupBy m k = none := by
  intro m
  induction m with
  | nil => intro _; rfl
  | cons p rest ih =>
      intro h
      simp only [List.any_cons, Bool.or_eq_false_iff] at h
      rw [lookupBy, if_neg (by simp [h.1]), ih h.2]

theorem lookupBy_append_left_none {α : Type} (k : String) :
    ∀ (m₁ m₂ : List (String × α)), lookupBy m₁ k = none →
      lookupBy (m₁ ++ m₂) k = lookupBy m₂ k := by
  intro m₁
  induction m₁ with
  | nil => intro m₂ _; rfl
  | cons p rest ih =>
      intro m₂ h
      rw [lookupBy] at h
      by_cases hk : p.1 == k
      · rw [if_pos hk] at h; exact absurd h (by simp)
      · rw [if_neg hk] at h
        rw [List.cons_append, lookupBy, if_neg hk]
        exact ih m₂ h

theorem lookupBy_mapWrite {α : Type} (k : String) (v : α) :
    ∀ (m : List (String × α)), m.any (fun p => p.1 == k) = true →
      lookupBy (m.map (fun p => if p.1 == k then (k, v) else p)) k = some v := by
  intro m
  induction m with
  | nil => intro h; simp at h
  | cons p rest ih =>
      intro h
      by_cases hk : p.1 == k
      · rw [List.map_cons, if_pos hk, lookupBy, if_pos (by simp)]
      · rw [List.map_cons, if_neg hk, lookupBy, if_neg hk]
        apply ih
        simp only [List.any_cons, Bool.or_eq_true] at h
        rcases h with h | h
        · exact absurd h hk
        · exact h

theorem lookupBy_mapSet {α : Type} (m : List (String × α)) (k : String) (v : α) :
    lookupBy (mapSet m k v) k = some v := by
  rw [mapSet]
  by_cases h : m.any (fun p => p.1 == k) = true
  · rw [if_pos h]
    exact lookupBy_mapWrite k v m h
  · rw [if_neg h]
    rw [lookupBy_append_left_none k m _
      (lookupBy_none_of_any_false k m (by revert h; cases m.any (fun p => p.1 == k) <;> simp))]
    rw [lookupBy, if_pos (by simp)]

theorem lookupBy_filter_keep {α : Type} (p : String × α → Bool) (k : String)
    (hp : ∀ v, p (k, v) = true) :
    ∀ (m : List (String × α)), lookupBy (m.filter p) k = lookupBy m k := by
  intro m
  induction m with
  | nil => rfl
  | cons e rest ih =>
      by_cases hk : e.1 == k
      · have he : e = (k, e.2) := by
          rcases e with ⟨a, b⟩
          simp only [beq_iff_eq] at hk
          simp [hk]
        have hpe : p e = true := by rw [he]; exact hp e.2
        rw [List.filter_cons, if_pos hpe, lookupBy, if_pos hk, lookupBy, if_pos hk]
      · rw [List.filter_cons, lookupBy, if_neg hk]
        by_cases hpe : p e = true
        · rw [if_pos hpe, lookupBy, if_neg hk, ih]
        · rw [if_neg hpe, ih]

theorem lookupBy_filter_drop {α : Type} (p : String × α → Bool) (k : String)
    (hp : ∀ v, p (k, v) = false) :
    ∀ (m : List (String × α)), lookupBy (m.filter p) k = none := by
  intro m
  induction m with
  | nil => rfl
  | cons e rest ih =>
      by_cases hk : e.1 == k
      · have he : e = (k, e.2) := by
          rcases e with ⟨a, b⟩
          simp only [beq_iff_eq] at hk
          simp [hk]
        have hpe : p e = false := by rw [he]; exact hp e.2
        rw [List.filter_cons, if_neg (by simp [hpe]), ih]
      · rw [List.filter_cons]
        by_cases hpe : p e = true
        · rw [if_pos hpe, lookupBy, if_neg hk, ih]
        · rw [if_neg hpe, ih]

/-! Claim theorems. -/

/-- C1 (amended): for every discovery run over endpoint outcomes with
distinct endpoint names, the session's unique count is at most its
total count, and equality holds exactly when the records of the
contributing endpoints carry pairwise distinct non-empty identities —
not merely when no record appears under more than one endpoint, since
a duplicate identity within a single endpoint, or an empty identity,
also breaks equality.  In particular two endpoints each returning a
record with identity rec-1 yield unique count 1 and total count 2. -/
theorem claim_C1_amended (outs : List EndpointResult)
    (hnames : (outs.map EndpointResult.EndpointName).Nodup) :
    ((discoverOutcome outs).UniqueCDRs ≤ (discoverOutcome outs).TotalCDRs ∧
      ((discoverOutcome outs).UniqueCDRs = (discoverOutcome outs).TotalCDRs ↔
        (successIds outs).Nodup ∧ "" ∉ successIds outs)) ∧
    (discoverOutcome outsRec1).UniqueCDRs = 1 ∧
    (discoverOutcome outsRec1).TotalCDRs = 2 := by
  obtain ⟨ht, hu⟩ := discoverOutcome_counts outs hnames
  refine ⟨⟨?_, ?_⟩, by decide, by decide⟩
  · rw [ht, hu]; exact card_sdiff_le_length _
  · rw [ht, hu]; exact card_sdiff_eq_length_iff _

/-- C1 (counterexample): the claimed equivalence fails as stated — a
run whose single endpoint returns the identity rec-1 twice has no
record appearing under more than one endpoint, yet its unique count
(1) differs from its total count (2). -/
theorem claim_C1_counterexample :
    noCrossEndpointDuplicate outsSameEndpointDup ∧
    (discoverOutcome outsSameEndpointDup).UniqueCDRs ≠
      (discoverOutcome outsSameEndpointDup).TotalCDRs := by
  refine ⟨?_, by decide⟩
  unfold noCrossEndpointDuplicate
  decide

/-- C1 (witness): the amended theorem applied to the rec-1 scenario. -/
theorem claim_C1_witness :
    (outsRec1.map EndpointResult.EndpointName).Nodup ∧
    (discoverOutcome outsRec1).UniqueCDRs ≤ (discoverOutcome outsRec1).TotalCDRs :=
  ⟨by decide, (claim_C1_amended outsRec1 (by decide)).1.1⟩

/-- C2 (code bug, evaluated at the failing input): with one endpoint
timed out and one succeeding with three records of distinct
identities, the session has an EndpointResults list of length 2,
unique count 3 and TotalCDRs 3 as claimed, but its error list has two
entries rather than one: the endpoint loop of GetComprehensiveCDRs
appends the failed endpoint's error string twice (once inside the
logging block and once in the duplicated conditional that follows). -/
theorem claim_C2_eval :
    (discoverOutcome outsC2).Errors.length = 2 ∧
    (discoverOutcome outsC2).EndpointResults.length = 2 ∧
    (discoverOutcome outsC2).UniqueCDRs = 3 ∧
    (discoverOutcome outsC2).TotalCDRs = 3 := by
  decide

/-- C3 (code bug, evaluated at the failing input): persisting two
sessions with the same criteria and the same successful endpoint
leaves two analytics rows for the (serialized criteria, endpoint name)
key instead of one upserted row, because discovery_analytics carries no
uniqueness on that key and the INSERT OR REPLACE of
updateDiscoveryAnalytics therefore always appends a fresh row. -/
theorem claim_C3_eval :
    (analyticsRowsFor dbAfterOne (serializeCriteria critC3) "domain_cdrs").length = 1 ∧
    (analyticsRowsFor dbAfterTwo (serializeCriteria critC3) "domain_cdrs").length = 2 := by
  decide

/-- C4: persisting a discovery session is atomic — when any statement
of StoreDiscoverySession fails the deferred rollback leaves the store
exactly as it was and an error is returned to the caller, and when
every statement succeeds the commit installs all rows together.  The
embedded StoreDiscoverySession is a function of the persistent store
alone, mirroring that the Go method never touches the in-memory
results cache. -/
theorem claim_C4 (fails : Nat → Bool) (now : Nat) (db : DiscoveryDB) (r : CDRDiscoveryResult) :
    ((∃ i, i < (mkStoreSteps now r).length ∧ fails i = true) →
      (StoreDiscoverySession fails now db r).1 = db ∧
      (StoreDiscoverySession fails now db r).2.isSome = true) ∧
    ((∀ i, i < (mkStoreSteps now r).length → fails i = false) →
      (StoreDiscoverySession fails now db r).2 = none ∧
      (StoreDiscoverySession fails now db r).1 = applySteps (mkStoreSteps now r) db) := by
  constructor
  · rintro ⟨i, hi, hf⟩
    obtain ⟨e, he⟩ := runTx_err fails (mkStoreSteps now r) 0 db ⟨i, hi, by simpa using hf⟩
    rw [StoreDiscoverySession, he]
    exact ⟨rfl, rfl⟩
  · intro h
    have hok := runTx_ok fails (mkStoreSteps now r) 0 db (fun j hj => by simpa using h j hj)
    rw [StoreDiscoverySession, hok]
    exact ⟨rfl, rfl⟩

/-- C4 (witness): the atomicity theorem applied to a failing first
statement on the empty store. -/
theorem claim_C4_witness :
    (∃ i, i < (mkStoreSteps 0 (resultC3 "s1")).length ∧ failAt0 i = true) ∧
    (StoreDiscoverySession failAt0 0 emptyDB (resultC3 "s1")).1 = emptyDB ∧
    (StoreDiscoverySession failAt0 0 emptyDB (resultC3 "s1")).2.isSome = true :=
  ⟨⟨0, by decide, rfl⟩,
   (claim_C4 failAt0 0 emptyDB (resultC3 "s1")).1 ⟨0, by decide, rfl⟩⟩

/-- Every parameter of buildParams whose key is raw is the pair
(raw, yes) produced by the raw branch, and that branch requires raw
support and the raw flag. -/
theorem mem_buildParams_raw_key (endpointConfig : CDREndpointConfig)
    (criteria : CDRSearchCriteria) (p : String × String)
    (hp : p ∈ buildParams endpointConfig criteria) (hk : p.1 = "raw") :
    (endpointConfig.SupportsRaw && criteria.Raw) = true ∧ p = ("raw", "yes") := by
  simp only [buildParams, List.mem_append] at hp
  rcases hp with ((((((h | h) | h) | h) | h) | h) | h) | h <;>
    split at h <;> simp_all

/-- C6: the URL built for an endpoint carries the query parameter
raw=yes exactly when the endpoint declares raw support and the
criteria's raw flag is set; in every other case the parameter is
absent. -/
theorem claim_C6 (endpointConfig : CDREndpointConfig) (criteria : CDRSearchCriteria) :
    ("raw", "yes") ∈ buildParams endpointConfig criteria ↔
      endpointConfig.SupportsRaw = true ∧ criteria.Raw = true := by
  constructor
  · intro h
    have := (mem_buildParams_raw_key endpointConfig criteria _ h rfl).1
    simpa [Bool.and_eq_true] using this
  · rintro ⟨h1, h2⟩
    simp [buildParams, List.mem_append, h1, h2]

/-- C6 (witness): the parameter appears for a raw-supporting endpoint
with the raw flag set. -/
theorem claim_C6_witness :
    ("raw", "yes") ∈ buildParams globalCdrsConfig { Domain := "a.com", Raw := true } :=
  (claim_C6 _ _).mpr ⟨rfl, rfl⟩

/-- C7: for every search criteria, the endpoint selector returns at
least one endpoint — global_cdrs has no required parameters and is not
a count endpoint, so the filtered selection is never empty (the
explicit fallback branch of the source is unreachable with this
catalog but its translation is kept). -/
theorem claim_C7 (criteria : CDRSearchCriteria) :
    1 ≤ (selectEndpointsToQuery criteria).length := by
  have hmem : globalCdrsConfig ∈
      GetSupportedEndpoints.filter (fun endpoint =>
        !stringsContains endpoint.Name "count" && hasRequiredParams endpoint criteria) :=
    List.mem_filter.mpr ⟨by decide, rfl⟩
  have hne : GetSupportedEndpoints.filter (fun endpoint =>
      !stringsContains endpoint.Name "count" && hasRequiredParams endpoint criteria) ≠ [] :=
    List.ne_nil_of_mem hmem
  simp only [selectEndpointsToQuery]
  rw [if_neg (by simp [List.isEmpty_iff, hne])]
  exact List.length_pos.mpr hne

/-- C8: endpoint selection is order-preserving — for every criteria
the selected list is a subsequence of the catalog in catalog order
(and, the selector being a pure function of the criteria, repeated
calls with identical criteria return the same list); for criteria with
only the domain set, exactly global_cdrs and domain_cdrs are selected,
in catalog order. -/
theorem claim_C8 (criteria : CDRSearchCriteria) :
    List.Sublist (selectEndpointsToQuery criteria) GetSupportedEndpoints ∧
    (selectEndpointsToQuery { Domain := "a.com" }).map CDREndpointConfig.Name =
      ["global_cdrs", "domain_cdrs"] := by
  constructor
  · simp only [selectEndpointsToQuery]
    split
    · split
      · next endpoint hfind =>
          exact List.singleton_sublist.mpr (List.mem_of_find?_eq_some hfind)
      · exact List.nil_sublist _
    · exact List.filter_sublist _
  · decide

/-- C9: decoding a malformed individual record is non-fatal for each
accepted response shape — in a bare array every non-record item or
failed conversion is skipped and the remaining records are kept, an
object wrapping records under a data key recurses on the wrapped
value, a bare single record object decodes as one record — and an
endpoint answering 200 with an array body is marked successful with
the well-formed records counted, regardless of malformed items in the
array. -/
theorem claim_C9 :
    (∀ items : List JValue,
      convertAPIResponseToCDRs (JValue.arr items) =
        Except.ok (items.filterMap decodedRecord)) ∧
    (∀ (m : List (String × JValue)) (d : JValue), lookupBy m "data" = some d →
      convertAPIResponseToCDRs (JValue.obj m) = convertAPIResponseToCDRs d) ∧
    (∀ m : List (String × JValue), lookupBy m "data" = none →
      convertAPIResponseToCDRs (JValue.obj m) = Except.ok [FlexibleCDR.ofRawData m]) ∧
    (∀ (http : String → HTTPOutcome) (baseURL : String) (cfg : CDREndpointConfig)
        (criteria : CDRSearchCriteria) (statusText : String) (items : List JValue),
      http (buildEndpointURL baseURL cfg criteria) =
        HTTPOutcome.response 200 statusText (some (JValue.arr items)) →
      (queryEndpoint http baseURL cfg criteria).Success = true ∧
      (queryEndpoint http baseURL cfg criteria).CDRs = items.filterMap decodedRecord ∧
      (queryEndpoint http baseURL cfg criteria).RecordCount =
        (items.filterMap decodedRecord).length) := by
  refine ⟨?_, ?_, ?_, ?_⟩
  · intro items
    simp [convertAPIResponseToCDRs]
  · intro m d h
    simp only [convertAPIResponseToCDRs]
    split
    · rename_i data heq
      rw [h] at heq
      injection heq with heq'
      rw [heq']
    · rename_i heq
      rw [h] at heq
      exact absurd heq (by simp)
  · intro m h
    simp only [convertAPIResponseToCDRs, convertMapToFlexibleCDR]
    split
    · rename_i data heq
      rw [h] at heq
      exact absurd heq (by simp)
    · rfl
  · intro http baseURL cfg criteria statusText items hhttp
    simp [queryEndpoint, hhttp, convertAPIResponseToCDRs]

/-- C9 (witness): the data-wrapped shape with one malformed item
recurses on the wrapped array. -/
theorem claim_C9_witness :
    lookupBy mExC9 "data" =
      some (JValue.arr [JValue.obj [("id", JValue.str "a")], JValue.num 7]) ∧
    convertAPIResponseToCDRs (JValue.obj mExC9) =
      convertAPIResponseToCDRs (JValue.arr [JValue.obj [("id", JValue.str "a")], JValue.num 7]) :=
  ⟨rfl, claim_C9.2.1 mExC9 _ rfl⟩

/-- C5 (amended): after Store of a session at tick t0, provided no
deletion scheduled by an earlier Store of the same identifier is still
outstanding with a due time before this Store's TTL elapses, Get
returns exactly the stored result at any tick strictly before
t0 + TTL and not-found at any tick from t0 + TTL on (no intervening
re-Store, Delete or Clear occurring in between; scheduled deletions
are modelled as firing promptly once due). -/
theorem claim_C5_amended (s : TimedResultsStore) (t0 t : Nat) (sid : String)
    (res : CDRDiscoveryResult)
    (hpending : ∀ ft, (sid, ft) ∈ s.pending → t0 + s.store.ttl ≤ ft)
    (hle : t0 ≤ t) :
    (t < t0 + s.store.ttl → ((s.Store t0 sid res).Get t sid).1 = some res) ∧
    (t0 + s.store.ttl ≤ t → ((s.Store t0 sid res).Get t sid).1 = none) := by
  have hget : ((s.Store t0 sid res).Get t sid).1 =
      lookupBy ((mapSet (s.store.results.filter (fun e =>
          !(s.pending.any (fun p => p.1 == e.1 && decide (p.2 ≤ t0))))) sid res).filter
        (fun e =>
          !((s.pending.filter (fun p => !(decide (p.2 ≤ t0))) ++
              [(sid, t0 + s.store.ttl)]).any
            (fun p => p.1 == e.1 && decide (p.2 ≤ t))))) sid := rfl
  constructor
  · intro hlt
    rw [hget]
    have hkeep : ∀ v : CDRDiscoveryResult,
        (!((s.pending.filter (fun p => !(decide (p.2 ≤ t0))) ++
            [(sid, t0 + s.store.ttl)]).any
          (fun p => p.1 == (sid, v).1 && decide (p.2 ≤ t)))) = true := by
      intro v
      rw [Bool.not_eq_true', List.any_eq_false]
      intro q hq
      rcases List.mem_append.mp hq with hq | hq
      · have hq' : q ∈ s.pending := List.mem_of_mem_filter hq
        simp only [Bool.and_eq_true, beq_iff_eq, decide_eq_true_eq, not_and]
        intro h1 h2
        rcases q with ⟨a, ft⟩
        simp only at h1
        subst h1
        exact absurd (hpending ft hq') (by omega)
      · simp only [List.mem_singleton] at hq
        subst hq
        simp only [Bool.and_eq_true, beq_iff_eq, decide_eq_true_eq, not_and]
        intro _ h2
        omega
    rw [lookupBy_filter_keep _ sid hkeep]
    exact lookupBy_mapSet _ _ _
  · intro hge
    rw [hget]
    have hdrop : ∀ v : CDRDiscoveryResult,
        (!((s.pending.filter (fun p => !(decide (p.2 ≤ t0))) ++
            [(sid, t0 + s.store.ttl)]).any
          (fun p => p.1 == (sid, v).1 && decide (p.2 ≤ t)))) = false := by
      intro v
      rw [Bool.not_eq_false', List.any_eq_true]
      refine ⟨(sid, t0 + s.store.ttl), List.mem_append_right _ (by simp), ?_⟩
      simp [hge]
    rw [lookupBy_filter_drop _ sid hdrop]

/-- C5 (counterexample): with a TTL of 10 ticks, Store of session sess
at tick 0, re-Store of the same session at tick 5 and Get at tick 12 —
with no operation between that Store and the Get — returns not-found
even though tick 12 is strictly before the second Store's TTL elapses
at tick 15: the deletion scheduled by the first Store is still pending
and removes the re-stored entry at tick 10. -/
theorem claim_C5_counterexample :
    12 < 5 + (NewResultsStore 10).store.ttl ∧
    (storeAfterSecond.Get 12 "sess").1 = none :=
  ⟨by decide, rfl⟩

/-- C5 (witness): the amended theorem applied to a fresh store with
TTL 10, Store at tick 0 and Get at tick 3. -/
theorem claim_C5_witness :
    (∀ ft, ("sess", ft) ∈ (NewResultsStore 10).pending →
      0 + (NewResultsStore 10).store.ttl ≤ ft) ∧
    (((NewResultsStore 10).Store 0 "sess" resultEx).Get 3 "sess").1 = some resultEx :=
  ⟨fun ft h => absurd h (by simp [NewResultsStore]),
   (claim_C5_amended (NewResultsStore 10) 0 3 "sess" resultEx
      (fun ft h => absurd h (by simp [NewResultsStore])) (by decide)).1 (by decide)⟩

/-- C10: the deduplication step drops every record whose identity
resolves to the empty string — nothing in the deduplicated output has
an empty identity — so, as in the run whose only endpoint returns one
identity-less record, such records contribute nothing to the unique
count or the aggregated record list while still being counted in the
per-endpoint record counts and in TotalCDRs. -/
theorem claim_C10 :
    (∀ cdrs : List FlexibleCDR,
      (deduplicateCDRs cdrs).all (fun cdr => cdr.GetID != "") = true) ∧
    (discoverOutcome outsEmptyId).UniqueCDRs = 0 ∧
    (discoverOutcome outsEmptyId).AllCDRs = [] ∧
    (discoverOutcome outsEmptyId).TotalCDRs = 1 ∧
    (discoverOutcome outsEmptyId).EndpointResults.map EndpointResult.RecordCount = [1] := by
  refine ⟨?_, by decide, rfl, by decide, by decide⟩
  intro cdrs
  rw [List.all_eq_true]
  intro c hc
  have h := deduplicateCDRsGo_ne_empty cdrs [] c hc
  simpa [bne_iff_ne] using h

end ODanGo
